import Mathlib

/-!
Verification development for the Quanta data pipeline.

Shallow embedding of the repository sources:
  scripts/polarity_analysis.py, scripts/StockSentimentMapper.py,
  scripts/get_data.py, scripts/ml_data_prep.py.

External inputs (HTTP responses, on-disk CSV artifacts, the VADER
sentiment analyzer, the wall clock) are modelled as explicit parameters
of the embedded functions; everything downstream of those parameters is
translated from the Python source.  Dates are modelled as natural-number
day indices, prices and scores as rationals.
-/

namespace Quanta

/-! ## String utilities (Python `str.strip`, `str.lower`, `in`, `split`) -/

/-- The ASCII whitespace characters recognized by Python `str.strip()`
(Python also strips further Unicode whitespace; the repository only ever
meets ASCII here). -/
def isPySpace (c : Char) : Bool :=
  c = ' ' || c = '\t' || c = '\n' || c = '\x0d' || c = '\x0b' || c = '\x0c'

/-- Python `str.strip()` on a character list: drop whitespace at both ends. -/
def stripChars (l : List Char) : List Char :=
  ((l.dropWhile isPySpace).reverse.dropWhile isPySpace).reverse

/-- Python `str.strip()`. -/
def pyStrip (s : String) : String :=
  String.mk (stripChars s.toList)

/-- Python `str.lower()` (ASCII case folding, which is all the sources use). -/
def strLower (s : String) : String :=
  String.mk (s.toList.map Char.toLower)

/-- Python `needle in haystack` prefix test helper. -/
def isPrefixOfB : List Char → List Char → Bool
  | [], _ => true
  | _ :: _, [] => false
  | a :: as, b :: bs => a = b && isPrefixOfB as bs

/-- Python substring containment: does the needle occur contiguously in the
haystack (the empty needle is contained in everything, as in Python)? -/
def containsSubAux (needle : List Char) : List Char → Bool
  | [] => isPrefixOfB needle []
  | c :: cs => isPrefixOfB needle (c :: cs) || containsSubAux needle cs

/-- Python `needle in haystack` on strings. -/
def strContains (haystack needle : String) : Bool :=
  containsSubAux needle.toList haystack.toList

/-- Python `str.split()` with no argument: split on whitespace runs,
returning no empty words. -/
def pySplitWs (s : String) : List String :=
  ((s.toList.splitOnP isPySpace).filter (fun w => w ≠ [])).map String.mk

/-- Python `str.replace(',', '')` — removing every comma; the source only
ever calls `replace` with a single-character pattern and empty replacement. -/
def removeCommas (s : String) : String :=
  String.mk (s.toList.filter (fun c => c ≠ ','))

/-! ## Generic list utilities used by the embedding -/

/-- Insert into a sorted duplicate-free list, keeping it sorted and
duplicate-free (used to model sorted-unique index construction:
pandas union-of-indexes and `Categorical` category extraction). -/
def insortD [LinearOrder α] (x : α) : List α → List α
  | [] => [x]
  | y :: ys => if x = y then y :: ys else if x < y then x :: y :: ys else y :: insortD x ys

/-- Sorted deduplication of a list. -/
def dedupSort [LinearOrder α] : List α → List α
  | [] => []
  | x :: xs => insortD x (dedupSort xs)

/-- Index of the first occurrence of a value in a list (pandas categorical
code: position of the value among the categories). -/
def idxOfStr (s : String) : List String → Nat
  | [] => 0
  | t :: ts => if s = t then 0 else idxOfStr s ts + 1

/-- `pandas.Categorical(vals).codes`: the code of each value is its position
in the sorted deduplicated category list. -/
def categoricalCodes (vals : List String) : List Nat :=
  let cats := dedupSort vals
  vals.map (fun v => idxOfStr v cats)

/-- Python `dict.get(k, d)` over an association-list model of a dict whose
keys are unique (lookup of the entry for `k`, defaulting to `d`). -/
def lookupD (m : List (String × String)) (k d : String) : String :=
  match m.find? (fun p => p.1 = k) with
  | some p => p.2
  | none => d

/-! ## scripts/polarity_analysis.py

The VADER `SentimentIntensityAnalyzer` is an external library; its
`polarity_scores(text)["compound"]` value is modelled as an explicit
function parameter `analyzer : String → ℚ`.  Both repository functions
simply feed the text to that analyzer. -/

inductive Sentiment
  | Positive
  | Negative
  | Neutral
deriving DecidableEq, Repr

/-- `get_sentiment_score` from scripts/polarity_analysis.py: compute the
compound score of the text and classify it against the fixed thresholds
(`>= 0.05` Positive, `<= -0.05` Negative, else Neutral). -/
def get_sentiment_score (analyzer : String → ℚ) (text : String) : Sentiment :=
  let score := analyzer text
  if score ≥ 5/100 then Sentiment.Positive
  else if score ≤ -(5/100) then Sentiment.Negative
  else Sentiment.Neutral

/-- `get_compound_score` from scripts/polarity_analysis.py: the raw compound
score of the text. -/
def get_compound_score (analyzer : String → ℚ) (text : String) : ℚ :=
  analyzer text

/-! ## scripts/StockSentimentMapper.py -/

/-- `self.sector_sentiment_map`: sector → (keyword → qualitative sentiment),
with the dict entries in source order. -/
def sector_sentiment_map : List (String × List (String × String)) :=
  [("defense",
     [("war", "positive"), ("conflict", "positive"), ("military_spending", "positive")]),
   ("tech",
     [("war", "negative"), ("cybersecurity_threat", "negative"), ("chip_shortage", "negative")]),
   ("healthcare",
     [("pandemic", "complex"), ("medical_breakthrough", "positive")])]

/-- `self.keyword_impact_matrix`: keyword → (target group → numeric weight). -/
def keyword_impact_matrix : List (String × List (String × ℚ)) :=
  [("war",
     [("defense_stocks", 7/10), ("tech_stocks", -(5/10)), ("energy_stocks", 3/10)]),
   ("pandemic",
     [("healthcare_stocks", 6/10), ("tech_stocks", 4/10), ("retail_stocks", -(3/10))])]

/-- Python dict assignment `m[k] = v` on an association-list model:
overwrite the entry if the key is present, else append it. -/
def dictInsert (m : List (String × String)) (k v : String) : List (String × String) :=
  if m.any (fun p => p.1 = k) then
    m.map (fun p => if p.1 = k then (k, v) else p)
  else m ++ [(k, v)]

/-- `StockSentimentMapper._determine_sector_impact`: for every sector and
every keyword of that sector, if the lower-cased keyword occurs in the
lower-cased headline, assign that sector the keyword sentiment (later
matches within a sector overwrite earlier ones, as dict assignment does). -/
def determine_sector_impact (headline : String) : List (String × String) :=
  sector_sentiment_map.foldl
    (fun acc entry =>
      entry.2.foldl
        (fun acc2 kw =>
          if strContains (strLower headline) (strLower kw.1) then
            dictInsert acc2 entry.1 kw.2
          else acc2)
        acc)
    []

/-- `StockSentimentMapper._extract_keyword_impacts`: keep every matrix entry
whose lower-cased keyword occurs in the lower-cased headline (all the
keys of `keyword_impact_matrix` are distinct, so dict insertion is plain
appending here). -/
def extract_keyword_impacts (headline : String) : List (String × List (String × ℚ)) :=
  keyword_impact_matrix.foldl
    (fun acc entry =>
      if strContains (strLower headline) (strLower entry.1) then acc ++ [entry]
      else acc)
    []

/-! ## scripts/get_data.py

`get_sp500_data` scrapes two HTTP sources; the embedding takes them as
parameters.  Source A (StockAnalysis.com) is modelled as the raw symbol
cell texts if the request and table extraction succeeded, `none` on any
failure (the whole Step 1 `try` block).  Source B (Wikipedia) is modelled
as the list of table rows, each row being its `td` cell texts, if the
request succeeded and the table was found; `none` models both an HTTP
failure and a missing table (in the source both raise into the Step 2
`except`, leaving `wiki_data` empty). -/

/-- Symbol normalization used on both sources:
`str(t).strip().replace('.', '-')`. -/
def normalizeSymbol (s : String) : String :=
  String.mk ((stripChars s.toList).map (fun c => if c = '.' then '-' else c))

/-- A character counts for the `\b` regex word boundary iff it is a word
character (letter, digit or underscore). -/
def isWordChar (c : Char) : Bool :=
  c.isAlphanum || c = '_'

/-- Does a 4-digit year, delimited by word boundaries, start at the head of
`l`, with `prev` the preceding character (if any)?  Models one candidate
position of the regex search for a 4-digit group with word boundaries. -/
def yearAtHead (prev : Option Char) (l : List Char) : Option String :=
  match l with
  | a :: b :: c :: d :: rest =>
    if a.isDigit && b.isDigit && c.isDigit && d.isDigit
        && (match prev with | none => true | some p => !isWordChar p)
        && (match rest with | [] => true | r :: _ => !isWordChar r) then
      some (String.mk [a, b, c, d])
    else none
  | _ => none

/-- Scan helper for `findYear`: try every position left to right. -/
def findYearAux (prev : Option Char) : List Char → Option String
  | [] => none
  | c :: cs =>
    match yearAtHead prev (c :: cs) with
    | some y => some y
    | none => findYearAux (some c) cs

/-- The `re.search` over `founded_info` in the source:: the first standalone
4-digit group of the string, if any. -/
def findYear (s : String) : Option String :=
  findYearAux none s.toList

/-- Parse one Wikipedia table body row (the body of the `for row ...` loop):
rows with at most 7 cells are skipped by the `len(columns) > 7` guard; a
sector cell blank after lower-casing raises `IndexError` on `split()` indexing
and the row is skipped by the `except IndexError` clause.  Produces
`(cleaned ticker, (founded year or "N/A", cleaned sector))`. -/
def parseWikiRow (row : List String) : Option (String × String × String) :=
  if 7 < row.length then
    let tick := normalizeSymbol (row.getD 0 "")
    let sectorInfo := pyStrip (row.getD 3 "")
    let foundedInfo := pyStrip (row.getD 7 "")
    let founded := (findYear foundedInfo).getD "N/A"
    match pySplitWs (strLower sectorInfo) with
    | [] => none
    | w :: _ => some (tick, founded, pyStrip (removeCommas w))
  else none

/-- The `wiki_data` dict built by Step 2, as the list of parsed body rows
(the first table row is the header, skipped by the slice `[1:]` of the found rows). -/
def wikiData (tableRows : List (List String)) : List (String × String × String) :=
  (tableRows.drop 1).filterMap parseWikiRow

/-- `wiki_data.get(ticker)`: dict lookup where a later row for the same
ticker overwrites an earlier one, hence the search from the right. -/
def wikiLookup (wd : List (String × String × String)) (t : String) :
    Option (String × String) :=
  match wd.reverse.find? (fun e => e.1 = t) with
  | some e => some e.2
  | none => none

/-- `get_sp500_data`: on source-A failure return the `(None, None, None)`
sentinel (modelled as `none`); otherwise normalize the symbols, build
`wiki_data` from source B when available (empty on its failure), and merge:
every ticker gets its wiki founding year and sector, defaulting to
`"N/A"` and `"unknown"`. -/
def get_sp500_data (sourceA : Option (List String))
    (sourceB : Option (List (List String))) :
    Option (List String × List (String × String) × List (String × String)) :=
  match sourceA with
  | none => none
  | some raw =>
    let tickers := raw.map normalizeSymbol
    let wd := match sourceB with
      | none => []
      | some tableRows => wikiData tableRows
    some (tickers,
      tickers.map (fun t => (t, (((wikiLookup wd t).map Prod.fst).getD "N/A"))),
      tickers.map (fun t => (t, (((wikiLookup wd t).map Prod.snd).getD "unknown"))))

/-! ### `get_latest_csv_path`

The directory is modelled as `none` when `directory.is_dir()` is false,
else as the list of `(name, mtime)` pairs of its files.  `Path.glob`
patterns support `*` and `?` wildcards (character classes, which the
repository never uses, are treated as literal characters). -/

/-- Try matching the rest of the pattern against every suffix of the name
(the `*` wildcard). -/
def matchStarWith (f : List Char → Bool) : List Char → Bool
  | [] => f []
  | c :: cs => f (c :: cs) || matchStarWith f cs

/-- Glob-style matching of a pattern against a file name. -/
def globMatch : List Char → List Char → Bool
  | [], s => s.isEmpty
  | '*' :: ps, s => matchStarWith (globMatch ps) s
  | '?' :: ps, s =>
    match s with
    | [] => false
    | _ :: cs => globMatch ps cs
  | c :: ps, s =>
    match s with
    | [] => false
    | d :: cs => c = d && globMatch ps cs

/-- Stable insertion for descending-by-mtime sorting: an element is placed
before the first strictly-older entry, and after entries with the same
mtime, which is exactly what stable `sorted(..., reverse=True)` yields. -/
def insertDesc (x : String × Nat) : List (String × Nat) → List (String × Nat)
  | [] => [x]
  | y :: ys => if y.2 ≤ x.2 then x :: y :: ys else y :: insertDesc x ys

/-- `sorted(files, key=mtime, reverse=True)` (stable). -/
def sortDesc : List (String × Nat) → List (String × Nat)
  | [] => []
  | x :: xs => insertDesc x (sortDesc xs)

/-- `get_latest_csv_path`: `None` when the directory is absent; otherwise
sort the glob matches by modification time descending and return the head,
`None` when nothing matches. -/
def get_latest_csv_path (directory : Option (List (String × Nat)))
    (pattern : String) : Option String :=
  match directory with
  | none => none
  | some files =>
    let matched := files.filter (fun f => globMatch pattern.toList f.1.toList)
    match sortDesc matched with
    | [] => none
    | x :: _ => some x.1

/-! ## scripts/ml_data_prep.py

`generate_ml_training_dataset` reads two CSV artifacts, maps headlines
through the sentiment analyzer, aligns everything on dates and emits the
training rows.  The embedding takes as parameters:

* `priceArtifact` — the latest price CSV, as an association list from
  ticker to its `Close` column of `(date, optional value)` cells
  (`none` when `get_latest_csv_path` found no file);
* `newsArtifact` — the latest news CSV, as `(date, headline)` rows with
  dates already normalized to days (`none` when no file was found);
* `sectorMapping` — `mapper.stock_sector_mapping`, the ticker→sector dict
  the `StockSentimentMapper` fetched;
* `an` — the VADER compound score used by
  `mapper._calculate_raw_sentiment`;
* `start` — the day index of `datetime.now() - timedelta(lookback_days)`.

Dates are day indices (`Nat`), prices and scores rationals. -/

/-- One row of the feature frame produced by `pd.concat(..., axis=1)`:
each column is optional-valued (`none` models NaN). -/
structure FeatRow where
  date : Nat
  daily_sentiment : Option ℚ
  sentiment_3d : Option ℚ
  sentiment_7d : Option ℚ
  Close_Price_T : Option ℚ
  ret_1d : Option ℚ
  ret_5d : Option ℚ
  ret_20d : Option ℚ
  vol_20d : Option ℚ
  Target_Pct_Change : Option ℚ
deriving DecidableEq, Repr

/-- A row of the final dataset: the feature row plus the sector columns
attached at the end of the function. -/
structure MLRow where
  feat : FeatRow
  Sector_Name : String
  Sector_Feature : Nat
deriving DecidableEq, Repr

/-- `Series.dropna()` on a `(date, optional value)` column. -/
def dropnaSeries (col : List (Nat × Option ℚ)) : List (Nat × ℚ) :=
  col.filterMap (fun p => p.2.map (fun v => (p.1, v)))

/-- Extraction of the close-price series for a ticker:
`price_df[(ticker, "Close")].dropna()` restricted by
`close.index >= start`; `none` when the column is absent. -/
def restrictClose (priceArtifact : List (String × List (Nat × Option ℚ)))
    (ticker : String) (start : Nat) : Option (List (Nat × ℚ)) :=
  match priceArtifact.find? (fun p => p.1 = ticker) with
  | none => none
  | some p => some ((dropnaSeries p.2).filter (fun q => start ≤ q.1))

/-- `_safe_pct_change(s, periods=k)` positionally: entry `i` is
`(p i - p (i-k)) / p (i-k)` when `i ≥ k`, NaN (`none`) otherwise; a zero
denominator yields infinity or NaN in pandas, both of which
`_safe_pct_change` turns into NaN. -/
def pctChange (k : Nat) (ps : List ℚ) : List (Option ℚ) :=
  (List.range ps.length).map (fun i =>
    if k ≤ i then
      let prev := ps.getD (i - k) 0
      if prev = 0 then none else some ((ps.getD i 0 - prev) / prev)
    else none)

/-- `Series.shift(-1)`: entry `i` becomes entry `i+1`, the last entry NaN. -/
def shiftM1 (col : List (Option ℚ)) : List (Option ℚ) :=
  (List.range col.length).map (fun i => col.getD (i + 1) none)

/-- The defined values inside the trailing window of width `w` ending at
position `i` (inclusive), as pandas `rolling(w)` sees them. -/
def windowVals (col : List (Option ℚ)) (w i : Nat) : List ℚ :=
  ((col.take (i + 1)).drop (i + 1 - w)).filterMap id

/-- `rolling(w, min_periods=m).mean()`. -/
def rollingMean (w m : Nat) (col : List (Option ℚ)) : List (Option ℚ) :=
  (List.range col.length).map (fun i =>
    let vs := windowVals col w i
    if m ≤ vs.length ∧ 1 ≤ vs.length then some (vs.sum / vs.length) else none)

/-- Sample variance (ddof = 1), the square of the pandas rolling `std`;
`ℚ` has no square root, and the claims only concern definedness of
`vol_20d`, never its numeric value, so the variance stands in for the
standard deviation. -/
def sampleVar (vs : List ℚ) : ℚ :=
  let n : ℚ := vs.length
  let mean := vs.sum / n
  (vs.map (fun v => (v - mean) ^ 2)).sum / (n - 1)

/-- `rolling(w, min_periods=m).std()` up to the square root (see
`sampleVar`). -/
def rollingStd (w m : Nat) (col : List (Option ℚ)) : List (Option ℚ) :=
  (List.range col.length).map (fun i =>
    let vs := windowVals col w i
    if m ≤ vs.length ∧ 2 ≤ vs.length then some (sampleVar vs) else none)

/-- `groupby(date).mean()` for one date: the mean of the scores carrying
that date. -/
def groupMean (scored : List (Nat × ℚ)) (d : Nat) : ℚ :=
  let vs := scored.filterMap (fun p => if p.1 = d then some p.2 else none)
  vs.sum / vs.length

/-- Date-indexed column lookup, as alignment on the row index of
`pd.concat(..., axis=1)` performs it: the column value at the position of
the date in the index, NaN when the date is not in the index. -/
def lookupCol : List Nat → List (Option ℚ) → Nat → Option ℚ
  | [], _, _ => none
  | _ :: _, [], _ => none
  | t :: ts, c :: cs, d => if d = t then c else lookupCol ts cs d

/-- `news_df["headline"].apply(mapper._calculate_raw_sentiment)`: each news
row mapped to its date and compound score. -/
def scoredNews (news : List (Nat × String)) (an : String → ℚ) : List (Nat × ℚ) :=
  news.map (fun p => (p.1, an p.2))

/-- The feature-frame row at one date of the union index: every column
value is looked up by date in its own (date-indexed) column, NaN when the
date is not in that column's index. -/
def mkFeatRow (close : List (Nat × ℚ)) (scored : List (Nat × ℚ)) (d : Nat) : FeatRow :=
  let dates := close.map Prod.fst
  let ps := close.map Prod.snd
  let ret1 := pctChange 1 ps
  let sdates := dedupSort (scored.map Prod.fst)
  let sdaily := sdates.map (fun e => groupMean scored e)
  { date := d
    daily_sentiment := lookupCol sdates (sdaily.map some) d
    sentiment_3d := lookupCol sdates (rollingMean 3 1 (sdaily.map some)) d
    sentiment_7d := lookupCol sdates (rollingMean 7 3 (sdaily.map some)) d
    Close_Price_T := lookupCol dates (ps.map some) d
    ret_1d := lookupCol dates ret1 d
    ret_5d := lookupCol dates (pctChange 5 ps) d
    ret_20d := lookupCol dates (pctChange 20 ps) d
    vol_20d := lookupCol dates (rollingStd 20 10 ret1) d
    Target_Pct_Change := lookupCol dates (shiftM1 ret1) d }

/-- Steps 3 and 4 of `generate_ml_training_dataset`: score the headlines,
aggregate them per day with the two rolling means, derive the return,
volatility and target columns from the close series, and concatenate
everything on the union of the two date indexes (both indexes are sorted,
so the union index is sorted and duplicate-free). -/
def buildRows (close : List (Nat × ℚ)) (news : List (Nat × String))
    (an : String → ℚ) : List FeatRow :=
  (dedupSort ((scoredNews news an).map Prod.fst ++ close.map Prod.fst)).map
    (mkFeatRow close (scoredNews news an))

/-- `dropna(how="all")` predicate: the row has at least one defined value
(the date is the index, not a column). -/
def anyFieldSome (r : FeatRow) : Bool :=
  r.daily_sentiment.isSome || r.sentiment_3d.isSome || r.sentiment_7d.isSome ||
  r.Close_Price_T.isSome || r.ret_1d.isSome || r.ret_5d.isSome ||
  r.ret_20d.isSome || r.vol_20d.isSome || r.Target_Pct_Change.isSome

/-- The tail of the successful path of `generate_ml_training_dataset`:
drop the rows without a defined target, resolve the sector for the ticker
(`mapper.stock_sector_mapping.get(ticker, "unknown")`), and attach the
`Sector_Name` column and its categorical codes. -/
def finalRows (close : List (Nat × ℚ)) (news : List (Nat × String))
    (sectorMapping : List (String × String)) (an : String → ℚ)
    (ticker : String) : List MLRow :=
  let feat := (buildRows close news an).filter anyFieldSome
  let feat2 := feat.filter (fun r => r.Target_Pct_Change.isSome)
  let sector := lookupD sectorMapping ticker "unknown"
  let codes := categoricalCodes (feat2.map (fun _ => sector))
  List.zipWith (fun r c => MLRow.mk r sector c) feat2 codes

/-- `generate_ml_training_dataset`: `none` models the `return None` paths
(no price artifact, ticker column absent, empty restricted close series,
no news artifact); otherwise the feature frame is built, rows without a
defined target are dropped, and the sector columns are attached
(`Sector_Feature` via `pd.Categorical(...).codes`).  Saving the CSV is a
side effect with no influence on the returned value and is not modelled. -/
def generate_ml_training_dataset
    (priceArtifact : Option (List (String × List (Nat × Option ℚ))))
    (newsArtifact : Option (List (Nat × String)))
    (sectorMapping : List (String × String))
    (an : String → ℚ) (start : Nat) (ticker : String) : Option (List MLRow) :=
  match priceArtifact with
  | none => none
  | some pdf =>
    match restrictClose pdf ticker start with
    | none => none
    | some close =>
      match close with
      | [] => none
      | _ :: _ =>
        match newsArtifact with
        | none => none
        | some news => some (finalRows close news sectorMapping an ticker)

/-! ## Helper lemmas -/

theorem sortDesc_head_max (xs : List (String × Nat)) (x : String × Nat) :
    ∃ h t, sortDesc (x :: xs) = h :: t ∧ h ∈ x :: xs ∧ ∀ y ∈ x :: xs, y.2 ≤ h.2 := by
  induction xs generalizing x with
  | nil =>
    refine ⟨x, [], rfl, List.mem_singleton.mpr rfl, ?_⟩
    intro y hy
    rw [List.mem_singleton] at hy
    exact hy ▸ le_refl _
  | cons z zs ih =>
    obtain ⟨h, t, heq, hmem, hmax⟩ := ih z
    have hs : sortDesc (x :: z :: zs) = insertDesc x (h :: t) := by
      have hstep : sortDesc (x :: z :: zs) = insertDesc x (sortDesc (z :: zs)) := rfl
      rw [hstep, heq]
    by_cases hc : h.2 ≤ x.2
    · refine ⟨x, h :: t, ?_, List.mem_cons_self x _, ?_⟩
      · rw [hs]
        simp [insertDesc, hc]
      · intro y hy
        rcases List.mem_cons.mp hy with hy1 | hy2
        · exact hy1 ▸ le_refl _
        · exact le_trans (hmax y hy2) hc
    · refine ⟨h, insertDesc x t, ?_, List.mem_cons_of_mem x hmem, ?_⟩
      · rw [hs]
        simp [insertDesc, hc]
      · intro y hy
        rcases List.mem_cons.mp hy with hy1 | hy2
        · exact hy1 ▸ le_of_not_le hc
        · exact hmax y hy2

theorem foldl_append_filter {α : Type} (q : α → Bool) (l acc : List α) :
    l.foldl (fun a x => if q x then a ++ [x] else a) acc = acc ++ l.filter q := by
  induction l generalizing acc with
  | nil => simp
  | cons x xs ih =>
    by_cases h : q x <;> simp [h, ih, List.filter_cons]

theorem getD_map_dotdash (l : List Char) (i : Nat) :
    (l.map (fun c => if c = '.' then '-' else c)).getD i ' ' =
      (if l.getD i ' ' = '.' then '-' else l.getD i ' ') := by
  induction l generalizing i with
  | nil => simp
  | cons c cs ih =>
    cases i with
    | zero => simp
    | succ j => simpa using ih j

theorem parseWikiRow_none_of_short {row : List String} (h : row.length ≤ 7) :
    parseWikiRow row = none := by
  simp [parseWikiRow, Nat.not_lt.mpr h]

theorem mem_insortD [LinearOrder α] {a x : α} {l : List α} :
    a ∈ insortD x l ↔ a = x ∨ a ∈ l := by
  induction l with
  | nil => simp [insortD]
  | cons y ys ih =>
    by_cases h1 : x = y
    · simp [insortD, h1, List.mem_cons]
    · by_cases h2 : x < y
      · simp [insortD, h1, h2, List.mem_cons]
      · simp only [insortD, if_neg h1, if_neg h2, List.mem_cons, ih]
        tauto

theorem mem_dedupSort [LinearOrder α] {a : α} {l : List α} :
    a ∈ dedupSort l ↔ a ∈ l := by
  induction l with
  | nil => simp [dedupSort]
  | cons x xs ih => simp [dedupSort, mem_insortD, ih]

theorem dedupSort_const {s : String} {l : List FeatRow} (h : l ≠ []) :
    dedupSort (l.map (fun _ => s)) = [s] := by
  induction l with
  | nil => exact absurd rfl h
  | cons x xs ih =>
    cases xs with
    | nil => simp [dedupSort, insortD]
    | cons y ys =>
      have hx : dedupSort (List.map (fun _ => s) (y :: ys)) = [s] := ih (by simp)
      have hstep : dedupSort (List.map (fun _ => s) (x :: y :: ys)) =
          insortD s (dedupSort (List.map (fun _ => s) (y :: ys))) := rfl
      rw [hstep, hx]
      simp [insortD]

theorem zipWith_map_right {α β γ : Type} (f : α → β → γ) (g : α → β) (l : List α) :
    List.zipWith f l (l.map g) = l.map (fun x => f x (g x)) := by
  induction l with
  | nil => rfl
  | cons x xs ih => simp [ih]

theorem rangeMap_getD (f : Nat → Option ℚ) (n i : Nat) (hi : i < n) :
    ((List.range n).map f).getD i none = f i := by
  have hlen : i < ((List.range n).map f).length := by simpa using hi
  rw [List.getD_eq_getElem _ _ hlen, List.getElem_map, List.getElem_range]

theorem pctChange_length (k : Nat) (ps : List ℚ) :
    (pctChange k ps).length = ps.length := by
  simp [pctChange]

theorem shiftM1_length (col : List (Option ℚ)) :
    (shiftM1 col).length = col.length := by
  simp [shiftM1]

theorem pctChange_getD (k : Nat) (ps : List ℚ) (i : Nat) (hi : i < ps.length) :
    (pctChange k ps).getD i none =
      if k ≤ i then
        (if ps.getD (i - k) 0 = 0 then none
         else some ((ps.getD i 0 - ps.getD (i - k) 0) / ps.getD (i - k) 0))
      else none := by
  simp only [pctChange]
  rw [rangeMap_getD _ _ _ hi]

theorem shiftM1_getD (col : List (Option ℚ)) (i : Nat) (hi : i < col.length) :
    (shiftM1 col).getD i none = col.getD (i + 1) none := by
  simp only [shiftM1]
  rw [rangeMap_getD _ _ _ hi]

theorem target_getD (ps : List ℚ) (i : Nat) (hi : i < ps.length) :
    (shiftM1 (pctChange 1 ps)).getD i none =
      if i + 1 < ps.length then
        (if ps.getD i 0 = 0 then none
         else some ((ps.getD (i + 1) 0 - ps.getD i 0) / ps.getD i 0))
      else none := by
  have h1 : i < (pctChange 1 ps).length := by
    rw [pctChange_length]
    exact hi
  rw [shiftM1_getD _ _ h1]
  by_cases h2 : i + 1 < ps.length
  · rw [if_pos h2, pctChange_getD 1 ps (i + 1) h2,
      if_pos (by omega : (1 : Nat) ≤ i + 1)]
    simp only [Nat.add_sub_cancel]
  · rw [if_neg h2]
    apply List.getD_eq_default
    rw [pctChange_length]
    omega

theorem getD_map_fst (cs : List (Nat × ℚ)) (i : Nat) :
    (cs.map Prod.fst).getD i 0 = (cs.getD i ((0 : Nat), (0 : ℚ))).1 :=
  List.getD_map cs ((0 : Nat), (0 : ℚ)) Prod.fst

theorem getD_map_snd (cs : List (Nat × ℚ)) (i : Nat) :
    (cs.map Prod.snd).getD i 0 = (cs.getD i ((0 : Nat), (0 : ℚ))).2 :=
  List.getD_map cs ((0 : Nat), (0 : ℚ)) Prod.snd

theorem lookupCol_getD (dates : List Nat) (col : List (Option ℚ)) (i : Nat)
    (hnd : dates.Nodup) (hlen : col.length = dates.length) (hi : i < dates.length) :
    lookupCol dates col (dates.getD i 0) = col.getD i none := by
  induction dates generalizing col i with
  | nil => exact absurd hi (by simp)
  | cons t ts ih =>
    cases col with
    | nil => exact absurd hlen (by simp)
    | cons c cs =>
      cases i with
      | zero => simp [lookupCol]
      | succ j =>
        have hj : j < ts.length := by simpa using hi
        have hne2 : ts.getD j 0 ≠ t := by
          intro he
          have hmem : t ∈ ts := by
            rw [← he, List.getD_eq_getElem _ _ hj]
            exact List.getElem_mem hj
          exact (List.nodup_cons.mp hnd).1 hmem
        have hlen2 : cs.length = ts.length := by simpa using hlen
        simp only [List.getD_cons_succ, lookupCol, if_neg hne2]
        exact ih cs j (List.nodup_cons.mp hnd).2 hlen2 hj

theorem lookupCol_some {dates : List Nat} {col : List (Option ℚ)} {d : Nat} {v : ℚ}
    (hlen : col.length = dates.length)
    (h : lookupCol dates col d = some v) :
    ∃ i, i < dates.length ∧ dates.getD i 0 = d ∧ col.getD i none = some v := by
  induction dates generalizing col with
  | nil => simp [lookupCol] at h
  | cons t ts ih =>
    cases col with
    | nil => simp [lookupCol] at h
    | cons c cs =>
      by_cases hd : d = t
      · rw [lookupCol, if_pos hd] at h
        exact ⟨0, by simp, by simp [hd], by simpa using h⟩
      · rw [lookupCol, if_neg hd] at h
        obtain ⟨i, hi, hdi, hci⟩ := ih (by simpa using hlen) h
        exact ⟨i + 1, by simpa using Nat.succ_lt_succ hi, by simpa using hdi,
          by simpa using hci⟩

theorem mkFeatRow_date (close scored : List (Nat × ℚ)) (d : Nat) :
    (mkFeatRow close scored d).date = d := rfl

theorem mkFeatRow_target (close scored : List (Nat × ℚ)) (d : Nat) :
    (mkFeatRow close scored d).Target_Pct_Change =
      lookupCol (close.map Prod.fst)
        (shiftM1 (pctChange 1 (close.map Prod.snd))) d := rfl

theorem anyFieldSome_of_target {r : FeatRow}
    (h : r.Target_Pct_Change.isSome = true) : anyFieldSome r = true := by
  simp [anyFieldSome, h]

theorem finalRows_eq_map (close : List (Nat × ℚ)) (news : List (Nat × String))
    (sm : List (String × String)) (an : String → ℚ) (ticker : String) :
    finalRows close news sm an ticker =
      (((buildRows close news an).filter anyFieldSome).filter
        (fun r => r.Target_Pct_Change.isSome)).map
        (fun r => MLRow.mk r (lookupD sm ticker "unknown")
          (idxOfStr (lookupD sm ticker "unknown")
            (dedupSort ((((buildRows close news an).filter anyFieldSome).filter
              (fun r => r.Target_Pct_Change.isSome)).map
              (fun _ => lookupD sm ticker "unknown"))))) := by
  simp only [finalRows, categoricalCodes, List.map_map]
  rw [zipWith_map_right]
  rfl

theorem generate_eq_finalRows (pdf : List (String × List (Nat × Option ℚ)))
    (news : List (Nat × String)) (sm : List (String × String)) (an : String → ℚ)
    (start : Nat) (ticker : String) (c0 : Nat × ℚ) (ctl : List (Nat × ℚ))
    (hclose : restrictClose pdf ticker start = some (c0 :: ctl)) :
    generate_ml_training_dataset (some pdf) (some news) sm an start ticker =
      some (finalRows (c0 :: ctl) news sm an ticker) := by
  simp only [generate_ml_training_dataset, hclose]

theorem generate_no_news (pa : Option (List (String × List (Nat × Option ℚ))))
    (sm : List (String × String)) (an : String → ℚ) (start : Nat) (ticker : String) :
    generate_ml_training_dataset pa none sm an start ticker = none := by
  cases pa with
  | none => rfl
  | some pdf =>
    simp only [generate_ml_training_dataset]
    cases hc : restrictClose pdf ticker start with
    | none => rfl
    | some close => cases close <;> rfl

/-! ## Claim theorems -/

/-- C2: for every text (and every compound-score function the analyzer may
compute), `get_sentiment_score` returns Positive iff the compound score from
`get_compound_score` is at least 0.05, Negative iff it is at most -0.05,
Neutral otherwise, and the boundary scores 0.05 and -0.05 classify as
Positive and Negative respectively. -/
theorem classify_iff_thresholds (an : String → ℚ) (text : String) :
    (get_sentiment_score an text = Sentiment.Positive ↔
      5/100 ≤ get_compound_score an text) ∧
    (get_sentiment_score an text = Sentiment.Negative ↔
      get_compound_score an text ≤ -(5/100)) ∧
    (get_sentiment_score an text = Sentiment.Neutral ↔
      (get_compound_score an text < 5/100 ∧ -(5/100) < get_compound_score an text)) ∧
    (get_compound_score an text = 5/100 →
      get_sentiment_score an text = Sentiment.Positive) ∧
    (get_compound_score an text = -(5/100) →
      get_sentiment_score an text = Sentiment.Negative) := by
  have hcs : get_compound_score an text = an text := rfl
  by_cases h1 : (5 : ℚ)/100 ≤ an text
  · have hgs : get_sentiment_score an text = Sentiment.Positive := by
      simp [get_sentiment_score, h1]
    rw [hgs, hcs]
    refine ⟨⟨fun _ => h1, fun _ => rfl⟩,
      ⟨fun h => absurd h (by decide), fun h => ?_⟩,
      ⟨fun h => absurd h (by decide), fun h => ?_⟩,
      fun _ => rfl, fun hb => ?_⟩
    · exfalso
      linarith
    · exfalso
      linarith [h.1]
    · exfalso
      rw [hb] at h1
      linarith
  · by_cases h2 : an text ≤ -(5/100)
    · have hgs : get_sentiment_score an text = Sentiment.Negative := by
        simp [get_sentiment_score, h1, h2]
      rw [hgs, hcs]
      refine ⟨⟨fun h => absurd h (by decide), fun h => absurd h h1⟩,
        ⟨fun _ => h2, fun _ => rfl⟩,
        ⟨fun h => absurd h (by decide), fun h => ?_⟩,
        fun hb => ?_, fun _ => rfl⟩
      · exfalso
        linarith [h.2]
      · exfalso
        rw [hb] at h1
        exact h1 le_rfl
    · have hgs : get_sentiment_score an text = Sentiment.Neutral := by
        simp [get_sentiment_score, h1, h2]
      rw [hgs, hcs]
      refine ⟨⟨fun h => absurd h (by decide), fun h => absurd h h1⟩,
        ⟨fun h => absurd h (by decide), fun h => absurd h h2⟩,
        ⟨fun _ => ⟨not_le.mp h1, not_le.mp h2⟩, fun _ => rfl⟩,
        fun hb => ?_, fun hb => ?_⟩
      · exfalso
        rw [hb] at h1
        exact h1 le_rfl
      · exfalso
        rw [hb] at h2
        exact h2 le_rfl

/-- Witness for C2 at a concrete analyzer and text, exercising the
Positive boundary. -/
theorem classify_iff_thresholds_witness :
    get_compound_score (fun _ => 5/100) "" = 5/100 ∧
    get_sentiment_score (fun _ => 5/100) "" = Sentiment.Positive :=
  ⟨rfl, (classify_iff_thresholds (fun _ => 5/100) "").2.2.2.1 rfl⟩

/-- C6: both mapper tables are matched by case-insensitive substring
containment against every entry, and all matches are returned: the sector
impact of a headline is exactly the concatenation of one entry per sector
whose condition is the disjunction over all that sector's keywords (no
first-match-wins across sectors; within a sector the last matching
keyword's sentiment stands, which for the concrete tables only matters
for healthcare), the keyword weights are exactly the matrix entries whose
keyword occurs in the headline, and a headline containing "war" yields
the positive defense impact, the negative tech impact, and a non-empty
weight map for "war". -/
theorem sector_keyword_all_matches (h : String) :
    (determine_sector_impact h =
      (if strContains (strLower h) "war" || strContains (strLower h) "conflict" ||
          strContains (strLower h) "military_spending" then
        [("defense", "positive")] else []) ++
      (if strContains (strLower h) "war" || strContains (strLower h) "cybersecurity_threat" ||
          strContains (strLower h) "chip_shortage" then
        [("tech", "negative")] else []) ++
      (if strContains (strLower h) "medical_breakthrough" then [("healthcare", "positive")]
       else if strContains (strLower h) "pandemic" then [("healthcare", "complex")]
       else [])) ∧
    (extract_keyword_impacts h =
      keyword_impact_matrix.filter (fun e => strContains (strLower h) (strLower e.1))) ∧
    (strContains (strLower h) "war" = true →
      ("defense", "positive") ∈ determine_sector_impact h ∧
      ("tech", "negative") ∈ determine_sector_impact h ∧
      ∃ w, ("war", w) ∈ extract_keyword_impacts h ∧ w ≠ []) := by
  have ewar : strLower "war" = "war" := rfl
  have econ : strLower "conflict" = "conflict" := rfl
  have emil : strLower "military_spending" = "military_spending" := rfl
  have ecyb : strLower "cybersecurity_threat" = "cybersecurity_threat" := rfl
  have echp : strLower "chip_shortage" = "chip_shortage" := rfl
  have epan : strLower "pandemic" = "pandemic" := rfl
  have emed : strLower "medical_breakthrough" = "medical_breakthrough" := rfl
  have hnf : determine_sector_impact h =
      (if strContains (strLower h) "war" || strContains (strLower h) "conflict" ||
          strContains (strLower h) "military_spending" then
        [("defense", "positive")] else []) ++
      (if strContains (strLower h) "war" || strContains (strLower h) "cybersecurity_threat" ||
          strContains (strLower h) "chip_shortage" then
        [("tech", "negative")] else []) ++
      (if strContains (strLower h) "medical_breakthrough" then [("healthcare", "positive")]
       else if strContains (strLower h) "pandemic" then [("healthcare", "complex")]
       else []) := by
    simp only [determine_sector_impact, sector_sentiment_map, List.foldl_cons, List.foldl_nil,
      ewar, econ, emil, ecyb, echp, epan, emed]
    cases hc1 : strContains (strLower h) "war" <;>
      cases hc2 : strContains (strLower h) "conflict" <;>
      cases hc3 : strContains (strLower h) "military_spending" <;>
      cases hc4 : strContains (strLower h) "cybersecurity_threat" <;>
      cases hc5 : strContains (strLower h) "chip_shortage" <;>
      cases hc6 : strContains (strLower h) "pandemic" <;>
      cases hc7 : strContains (strLower h) "medical_breakthrough" <;> decide
  have hex : extract_keyword_impacts h =
      keyword_impact_matrix.filter (fun e => strContains (strLower h) (strLower e.1)) :=
    (foldl_append_filter _ keyword_impact_matrix []).trans (List.nil_append _)
  refine ⟨hnf, hex, fun hw => ⟨?_, ?_, ?_⟩⟩
  · rw [hnf]
    simp [hw]
  · rw [hnf]
    simp [hw]
  · refine ⟨[("defense_stocks", 7/10), ("tech_stocks", -(5/10)), ("energy_stocks", 3/10)],
      ?_, by decide⟩
    rw [hex]
    simp [keyword_impact_matrix, List.filter_cons, ewar, hw]

/-- Witness for C6 at a concrete headline containing "war" (in mixed
case, exercising the case-insensitive containment). -/
theorem sector_keyword_all_matches_witness :
    strContains (strLower "War breaks out") "war" = true ∧
    ("defense", "positive") ∈ determine_sector_impact "War breaks out" ∧
    ("tech", "negative") ∈ determine_sector_impact "War breaks out" ∧
    ∃ w, ("war", w) ∈ extract_keyword_impacts "War breaks out" ∧ w ≠ [] :=
  ⟨by decide,
   ((sector_keyword_all_matches "War breaks out").2.2 (by decide)).1,
   ((sector_keyword_all_matches "War breaks out").2.2 (by decide)).2.1,
   ((sector_keyword_all_matches "War breaks out").2.2 (by decide)).2.2⟩

/-- C5: `get_latest_csv_path` returns `none` when the directory is absent
or no file matches the pattern, and when some matching file has strictly
maximal modification time it returns that file. -/
theorem latest_csv_strict_max (pattern : String) :
    (get_latest_csv_path none pattern = none) ∧
    (∀ files : List (String × Nat),
      (∀ f ∈ files, globMatch pattern.toList f.1.toList = false) →
      get_latest_csv_path (some files) pattern = none) ∧
    (∀ (files : List (String × Nat)) (f : String × Nat),
      f ∈ files → globMatch pattern.toList f.1.toList = true →
      (∀ g ∈ files, globMatch pattern.toList g.1.toList = true → g ≠ f → g.2 < f.2) →
      get_latest_csv_path (some files) pattern = some f.1) := by
  refine ⟨rfl, ?_, ?_⟩
  · intro files hnone
    have hfil : files.filter (fun f => globMatch pattern.toList f.1.toList) = [] := by
      rw [List.filter_eq_nil_iff]
      intro a ha
      simp only [hnone a ha]
      exact Bool.false_ne_true
    show (match sortDesc (files.filter (fun f => globMatch pattern.toList f.1.toList)) with
          | [] => none
          | x :: _ => some x.1) = none
    rw [hfil]
    rfl
  · intro files f hf hmatch hmax
    have hfmem : f ∈ files.filter (fun f => globMatch pattern.toList f.1.toList) :=
      List.mem_filter.mpr ⟨hf, hmatch⟩
    obtain ⟨m0, ms, hms⟩ := List.exists_cons_of_ne_nil (List.ne_nil_of_mem hfmem)
    obtain ⟨h, t, heq, hmem, hmaxall⟩ := sortDesc_head_max ms m0
    have hhf : h = f := by
      by_contra hne
      have hhmem : h ∈ files.filter (fun f => globMatch pattern.toList f.1.toList) :=
        hms ▸ hmem
      obtain ⟨hhfiles, hhmatch⟩ := List.mem_filter.mp hhmem
      have hlt : h.2 < f.2 := hmax h hhfiles hhmatch hne
      have hle : f.2 ≤ h.2 := hmaxall f (hms ▸ hfmem)
      omega
    show (match sortDesc (files.filter (fun f => globMatch pattern.toList f.1.toList)) with
          | [] => none
          | x :: _ => some x.1) = some f.1
    rw [hms, heq, hhf]

/-- Witness for C5: among three files of which two match the pattern, the
matching file with the strictly greatest modification time is returned,
and a no-match pattern returns `none`. -/
theorem latest_csv_strict_max_witness :
    get_latest_csv_path (some [("a.csv", 5), ("b.csv", 9), ("c.txt", 99)]) "*.csv" =
      some "b.csv" ∧
    get_latest_csv_path (some [("c.txt", 99)]) "*.csv" = none ∧
    get_latest_csv_path none "*.csv" = none :=
  ⟨(latest_csv_strict_max "*.csv").2.2 [("a.csv", 5), ("b.csv", 9), ("c.txt", 99)]
      ("b.csv", 9) (by decide) (by decide) (by decide),
   (latest_csv_strict_max "*.csv").2.1 [("c.txt", 99)] (by decide),
   (latest_csv_strict_max "*.csv").1⟩

/-- C7: when source B is unreachable while source A succeeds,
`get_sp500_data` still returns the full normalized ticker list — identical
to the list returned for any source-B outcome — and every record defaults
to founded_year "N/A" and sector "unknown". -/
theorem enrichment_failure_keeps_tickers (raw : List String)
    (sb : Option (List (List String))) :
    get_sp500_data (some raw) none =
      some (raw.map normalizeSymbol,
            (raw.map normalizeSymbol).map (fun t => (t, "N/A")),
            (raw.map normalizeSymbol).map (fun t => (t, "unknown"))) ∧
    (get_sp500_data (some raw) sb).map (fun x => x.1) =
      some (raw.map normalizeSymbol) := by
  constructor
  · rfl
  · cases sb <;> rfl

/-- C4 counterexample: with source A delivering two symbols and the
Wikipedia table present but structurally changed (its body row has only
three cells, so the expected column positions 3 and 7 are absent),
`get_sp500_data` does not surface any failure: it returns the full record
set with every sector defaulted to "unknown" and every founded year to
"N/A". -/
theorem wiki_structure_change_absorbed_cex :
    get_sp500_data (some ["AAA", "BBB"]) (some [["Symbol", "Name"], ["AAA", "x", "y"]]) =
      some (["AAA", "BBB"],
            [("AAA", "N/A"), ("BBB", "N/A")],
            [("AAA", "unknown"), ("BBB", "unknown")]) ∧
    get_sp500_data (some ["AAA", "BBB"]) (some [["Symbol", "Name"], ["AAA", "x", "y"]]) ≠
      none := by
  constructor
  · rfl
  · intro hc
    exact Option.noConfusion hc

/-- C4 amended: a structural change in source B — the table missing, or
every body row lacking the expected column positions — is silently
absorbed by `get_sp500_data`: the call still succeeds, returning the
normalized source-A tickers with every record defaulted to sector
"unknown" and founded_year "N/A"; no parse failure reaches the caller. -/
theorem wiki_structure_change_absorbed (raw : List String)
    (tableRows : List (List String))
    (hshort : ∀ row ∈ tableRows.drop 1, row.length ≤ 7) :
    get_sp500_data (some raw) (some tableRows) =
      some (raw.map normalizeSymbol,
            (raw.map normalizeSymbol).map (fun t => (t, "N/A")),
            (raw.map normalizeSymbol).map (fun t => (t, "unknown"))) ∧
    get_sp500_data (some raw) none =
      some (raw.map normalizeSymbol,
            (raw.map normalizeSymbol).map (fun t => (t, "N/A")),
            (raw.map normalizeSymbol).map (fun t => (t, "unknown"))) := by
  have hwd : wikiData tableRows = [] :=
    List.filterMap_eq_nil_iff.mpr (fun row hrow => parseWikiRow_none_of_short (hshort row hrow))
  constructor
  · show some (raw.map normalizeSymbol,
        (raw.map normalizeSymbol).map
          (fun t => (t, ((wikiLookup (wikiData tableRows) t).map Prod.fst).getD "N/A")),
        (raw.map normalizeSymbol).map
          (fun t => (t, ((wikiLookup (wikiData tableRows) t).map Prod.snd).getD "unknown"))) = _
    rw [hwd]
    exact rfl
  · rfl

/-- Witness for C4 amended, at a concrete table whose body rows are all
too short. -/
theorem wiki_structure_change_absorbed_witness :
    (∀ row ∈ ([["Symbol"], ["MMM", "3M"]] : List (List String)).drop 1, row.length ≤ 7) ∧
    get_sp500_data (some ["MMM"]) (some [["Symbol"], ["MMM", "3M"]]) =
      some (["MMM"], [("MMM", "N/A")], [("MMM", "unknown")]) :=
  ⟨by decide,
   (wiki_structure_change_absorbed ["MMM"] [["Symbol"], ["MMM", "3M"]] (by decide)).1⟩

/-- C9 counterexample: the symbol " A.B" (leading whitespace, containing a
dot) normalizes to "A-B", not to " A-B": the whitespace character is also
altered (removed), so dot replacement is not the only change. -/
theorem normalize_alters_whitespace_cex :
    (" A.B".toList.contains '.') = true ∧
    normalizeSymbol " A.B" = "A-B" ∧
    normalizeSymbol " A.B" ≠
      String.mk (" A.B".toList.map (fun c => if c = '.' then '-' else c)) := by
  exact ⟨by decide, by decide, by decide⟩

/-- C9 amended: normalization first strips surrounding whitespace and then
replaces every dot; on symbols without surrounding whitespace, the result
has the same length and every character is unchanged except that each
dot becomes a dash. -/
theorem normalize_replaces_dots (s : String)
    (hns : stripChars s.toList = s.toList) :
    (normalizeSymbol s).length = s.length ∧
    (∀ i, i < s.length →
      (normalizeSymbol s).toList.getD i ' ' =
        (if s.toList.getD i ' ' = '.' then '-' else s.toList.getD i ' ')) := by
  have htl : (normalizeSymbol s).toList =
      s.toList.map (fun c => if c = '.' then '-' else c) := by
    simp only [normalizeSymbol, hns]
    rfl
  constructor
  · have : (normalizeSymbol s).length = (normalizeSymbol s).toList.length := rfl
    rw [this, htl, List.length_map]
    rfl
  · intro i _
    rw [htl, getD_map_dotdash]

/-- Witness for C9 amended at the symbol "BRK.B". -/
theorem normalize_replaces_dots_witness :
    stripChars "BRK.B".toList = "BRK.B".toList ∧
    (normalizeSymbol "BRK.B").length = "BRK.B".length ∧
    (∀ i, i < "BRK.B".length →
      (normalizeSymbol "BRK.B").toList.getD i ' ' =
        (if "BRK.B".toList.getD i ' ' = '.' then '-'
         else "BRK.B".toList.getD i ' ')) :=
  ⟨by decide,
   (normalize_replaces_dots "BRK.B" (by decide)).1,
   (normalize_replaces_dots "BRK.B" (by decide)).2⟩

/-- C1: for every close-price series (with its distinct dates and nonzero
prices) processed by the dataset builder, every emitted row has a defined
target; every emitted row sits at a non-final close date `di` with
`Target_Pct_Change = (p(i+1) - pi) / pi`; every non-final close date is
emitted with that target; and the final close date is never emitted. -/
theorem target_is_next_day_return
    (pdf : List (String × List (Nat × Option ℚ))) (news : List (Nat × String))
    (sm : List (String × String)) (an : String → ℚ) (start : Nat) (ticker : String)
    (cs : List (Nat × ℚ)) (rows : List MLRow)
    (hclose : restrictClose pdf ticker start = some cs)
    (hnd : (cs.map Prod.fst).Nodup)
    (hnz : ∀ p ∈ cs, p.2 ≠ 0)
    (hgen : generate_ml_training_dataset (some pdf) (some news) sm an start ticker
      = some rows) :
    (∀ r ∈ rows, r.feat.Target_Pct_Change.isSome = true) ∧
    (∀ r ∈ rows, ∃ i, i + 1 < cs.length ∧
      r.feat.date = (cs.getD i ((0 : Nat), (0 : ℚ))).1 ∧
      r.feat.Target_Pct_Change = some
        (((cs.getD (i + 1) ((0 : Nat), (0 : ℚ))).2 - (cs.getD i ((0 : Nat), (0 : ℚ))).2) /
          (cs.getD i ((0 : Nat), (0 : ℚ))).2)) ∧
    (∀ i, i + 1 < cs.length → ∃ r ∈ rows,
      r.feat.date = (cs.getD i ((0 : Nat), (0 : ℚ))).1 ∧
      r.feat.Target_Pct_Change = some
        (((cs.getD (i + 1) ((0 : Nat), (0 : ℚ))).2 - (cs.getD i ((0 : Nat), (0 : ℚ))).2) /
          (cs.getD i ((0 : Nat), (0 : ℚ))).2)) ∧
    (∀ r ∈ rows, r.feat.date ≠ (cs.getD (cs.length - 1) ((0 : Nat), (0 : ℚ))).1) := by
  have hcs_ne : cs ≠ [] := by
    intro hnil
    subst hnil
    simp only [generate_ml_training_dataset, hclose] at hgen
    exact Option.noConfusion hgen
  obtain ⟨c0, ctl, hceq⟩ := List.exists_cons_of_ne_nil hcs_ne
  subst hceq
  have hrows : rows = finalRows (c0 :: ctl) news sm an ticker := by
    have hge := generate_eq_finalRows pdf news sm an start ticker c0 ctl hclose
    rw [hge] at hgen
    exact (Option.some.inj hgen).symm
  have hrows2 : rows =
      (((buildRows (c0 :: ctl) news an).filter anyFieldSome).filter
        (fun r => r.Target_Pct_Change.isSome)).map
        (fun r => MLRow.mk r (lookupD sm ticker "unknown")
          (idxOfStr (lookupD sm ticker "unknown")
            (dedupSort ((((buildRows (c0 :: ctl) news an).filter anyFieldSome).filter
              (fun r => r.Target_Pct_Change.isSome)).map
              (fun _ => lookupD sm ticker "unknown"))))) := by
    rw [hrows, finalRows_eq_map]
  have hdlen : ((c0 :: ctl).map Prod.fst).length = (c0 :: ctl).length :=
    List.length_map _ _
  have hplen : ((c0 :: ctl).map Prod.snd).length = (c0 :: ctl).length :=
    List.length_map _ _
  have htlen : (shiftM1 (pctChange 1 ((c0 :: ctl).map Prod.snd))).length =
      ((c0 :: ctl).map Prod.fst).length := by
    rw [shiftM1_length, pctChange_length, hplen, hdlen]
  have parta : ∀ r ∈ rows, ∃ i, i + 1 < (c0 :: ctl).length ∧
      r.feat.date = ((c0 :: ctl).getD i ((0 : Nat), (0 : ℚ))).1 ∧
      r.feat.Target_Pct_Change = some
        ((((c0 :: ctl).getD (i + 1) ((0 : Nat), (0 : ℚ))).2 -
            ((c0 :: ctl).getD i ((0 : Nat), (0 : ℚ))).2) /
          ((c0 :: ctl).getD i ((0 : Nat), (0 : ℚ))).2) := by
    intro r hr
    rw [hrows2] at hr
    obtain ⟨fr, hfr, hmk⟩ := List.mem_map.mp hr
    have hfr_feat : r.feat = fr := by
      rw [← hmk]
    have htg : fr.Target_Pct_Change.isSome = true := by
      have := (List.mem_filter.mp hfr).2
      simpa using this
    have hfr_build : fr ∈ buildRows (c0 :: ctl) news an :=
      (List.mem_filter.mp (List.mem_filter.mp hfr).1).1
    simp only [buildRows] at hfr_build
    obtain ⟨d, _, hmkd⟩ := List.mem_map.mp hfr_build
    rw [← hmkd, mkFeatRow_target] at htg
    obtain ⟨v, hv⟩ := Option.isSome_iff_exists.mp htg
    obtain ⟨i, hi, hdi, hgd⟩ := lookupCol_some htlen hv
    have hips : i < ((c0 :: ctl).map Prod.snd).length := by
      rw [hplen]
      rw [hdlen] at hi
      exact hi
    rw [target_getD _ _ hips] at hgd
    have hi1 : i + 1 < ((c0 :: ctl).map Prod.snd).length := by
      by_contra hno
      rw [if_neg hno] at hgd
      exact Option.noConfusion hgd
    rw [if_pos hi1] at hgd
    have hz : ((c0 :: ctl).map Prod.snd).getD i 0 ≠ 0 := by
      intro h0
      rw [if_pos h0] at hgd
      exact Option.noConfusion hgd
    rw [if_neg hz] at hgd
    refine ⟨i, by rw [hplen] at hi1; exact hi1, ?_, ?_⟩
    · rw [hfr_feat, ← hmkd, mkFeatRow_date, ← hdi, getD_map_fst]
    · rw [hfr_feat, ← hmkd, mkFeatRow_target, hv, ← hgd, getD_map_snd, getD_map_snd]
  have partb : ∀ i, i + 1 < (c0 :: ctl).length → ∃ r ∈ rows,
      r.feat.date = ((c0 :: ctl).getD i ((0 : Nat), (0 : ℚ))).1 ∧
      r.feat.Target_Pct_Change = some
        ((((c0 :: ctl).getD (i + 1) ((0 : Nat), (0 : ℚ))).2 -
            ((c0 :: ctl).getD i ((0 : Nat), (0 : ℚ))).2) /
          ((c0 :: ctl).getD i ((0 : Nat), (0 : ℚ))).2) := by
    intro i hi1
    have hi : i < ((c0 :: ctl).map Prod.fst).length := by
      rw [hdlen]
      omega
    have hips : i < ((c0 :: ctl).map Prod.snd).length := by
      rw [hplen]
      omega
    have hdmem : ((c0 :: ctl).map Prod.fst).getD i 0 ∈ (c0 :: ctl).map Prod.fst := by
      rw [List.getD_eq_getElem _ _ hi]
      exact List.getElem_mem hi
    have hdall : ((c0 :: ctl).map Prod.fst).getD i 0 ∈
        dedupSort ((scoredNews news an).map Prod.fst ++ (c0 :: ctl).map Prod.fst) :=
      mem_dedupSort.mpr (List.mem_append_right _ hdmem)
    have hfr_build :
        mkFeatRow (c0 :: ctl) (scoredNews news an) (((c0 :: ctl).map Prod.fst).getD i 0) ∈
          buildRows (c0 :: ctl) news an := by
      simp only [buildRows]
      exact List.mem_map_of_mem _ hdall
    have hzz : ((c0 :: ctl).map Prod.snd).getD i 0 ≠ 0 := by
      rw [getD_map_snd]
      apply hnz
      rw [List.getD_eq_getElem _ _ (by omega : i < (c0 :: ctl).length)]
      exact List.getElem_mem _
    have hlook : lookupCol ((c0 :: ctl).map Prod.fst)
        (shiftM1 (pctChange 1 ((c0 :: ctl).map Prod.snd)))
        (((c0 :: ctl).map Prod.fst).getD i 0) =
        (shiftM1 (pctChange 1 ((c0 :: ctl).map Prod.snd))).getD i none :=
      lookupCol_getD _ _ i hnd htlen hi
    have htval : (shiftM1 (pctChange 1 ((c0 :: ctl).map Prod.snd))).getD i none =
        some ((((c0 :: ctl).map Prod.snd).getD (i + 1) 0 -
            ((c0 :: ctl).map Prod.snd).getD i 0) /
          ((c0 :: ctl).map Prod.snd).getD i 0) := by
      rw [target_getD _ _ hips, if_pos (by rw [hplen]; exact hi1), if_neg hzz]
    have htgt : (mkFeatRow (c0 :: ctl) (scoredNews news an)
        (((c0 :: ctl).map Prod.fst).getD i 0)).Target_Pct_Change =
        some ((((c0 :: ctl).map Prod.snd).getD (i + 1) 0 -
            ((c0 :: ctl).map Prod.snd).getD i 0) /
          ((c0 :: ctl).map Prod.snd).getD i 0) := by
      rw [mkFeatRow_target, hlook, htval]
    have htgS : (mkFeatRow (c0 :: ctl) (scoredNews news an)
        (((c0 :: ctl).map Prod.fst).getD i 0)).Target_Pct_Change.isSome = true := by
      rw [htgt]
      rfl
    have hfeat : mkFeatRow (c0 :: ctl) (scoredNews news an)
        (((c0 :: ctl).map Prod.fst).getD i 0) ∈
        (buildRows (c0 :: ctl) news an).filter anyFieldSome :=
      List.mem_filter.mpr ⟨hfr_build, anyFieldSome_of_target htgS⟩
    have hfeat2 : mkFeatRow (c0 :: ctl) (scoredNews news an)
        (((c0 :: ctl).map Prod.fst).getD i 0) ∈
        ((buildRows (c0 :: ctl) news an).filter anyFieldSome).filter
          (fun r => r.Target_Pct_Change.isSome) :=
      List.mem_filter.mpr ⟨hfeat, by simpa using htgS⟩
    refine ⟨_, by rw [hrows2]; exact List.mem_map_of_mem _ hfeat2, ?_, ?_⟩
    · show (mkFeatRow (c0 :: ctl) (scoredNews news an)
          (((c0 :: ctl).map Prod.fst).getD i 0)).date = _
      rw [mkFeatRow_date, getD_map_fst]
    · show (mkFeatRow (c0 :: ctl) (scoredNews news an)
          (((c0 :: ctl).map Prod.fst).getD i 0)).Target_Pct_Change = _
      rw [htgt, getD_map_snd, getD_map_snd]
  have partc : ∀ r ∈ rows, r.feat.Target_Pct_Change.isSome = true := by
    intro r hr
    rw [hrows2] at hr
    obtain ⟨fr, hfr, hmk⟩ := List.mem_map.mp hr
    have hfr_feat : r.feat = fr := by
      rw [← hmk]
    rw [hfr_feat]
    simpa using (List.mem_filter.mp hfr).2
  have partd : ∀ r ∈ rows,
      r.feat.date ≠ ((c0 :: ctl).getD ((c0 :: ctl).length - 1) ((0 : Nat), (0 : ℚ))).1 := by
    intro r hr heq
    obtain ⟨i, hi1, hdate, _⟩ := parta r hr
    have hii : i < ((c0 :: ctl).map Prod.fst).length := by
      rw [hdlen]
      omega
    have hjj : (c0 :: ctl).length - 1 < ((c0 :: ctl).map Prod.fst).length := by
      rw [hdlen]
      simp
    have hd1 : ((c0 :: ctl).map Prod.fst).getD i 0 =
        ((c0 :: ctl).map Prod.fst).getD ((c0 :: ctl).length - 1) 0 := by
      rw [getD_map_fst, getD_map_fst, ← hdate, heq]
    rw [List.getD_eq_getElem _ _ hii, List.getD_eq_getElem _ _ hjj] at hd1
    have := (List.Nodup.getElem_inj_iff hnd).mp hd1
    omega
  exact ⟨partc, parta, partb, partd⟩

theorem generate_eval_two_point :
    generate_ml_training_dataset (some [("A", [(0, some 1), (1, some 2)])])
      (some [(0, "x")]) [] (fun _ => 0) 0 "A" = some
      [MLRow.mk
        { date := 0, daily_sentiment := some 0, sentiment_3d := some 0,
          sentiment_7d := none, Close_Price_T := some 1, ret_1d := none,
          ret_5d := none, ret_20d := none, vol_20d := none,
          Target_Pct_Change := some 1 } "unknown" 0] := by
  norm_num [generate_ml_training_dataset, restrictClose, dropnaSeries, finalRows,
    buildRows, mkFeatRow, scoredNews, dedupSort, insortD, pctChange, shiftM1,
    rollingMean, rollingStd, windowVals, groupMean, lookupCol, sampleVar,
    categoricalCodes, idxOfStr, lookupD, anyFieldSome, List.filter, List.filterMap,
    List.range_succ, List.range_zero, List.find?, List.foldl,
    List.getElem?_cons_zero, List.getElem?_cons_succ, List.getElem?_nil]

theorem restrictClose_eval_two_point :
    restrictClose [("A", [(0, some 1), (1, some 2)])] "A" 0 = some [(0, 1), (1, 2)] := by
  norm_num [restrictClose, dropnaSeries, List.find?, List.filterMap, List.filter]

/-- Witness for C1: a two-point close series (prices 1 then 2) with one
news row; the single emitted row carries date 0, a defined target equal
to (2 - 1) / 1, and the final date 1 is excluded. -/
theorem target_is_next_day_return_witness :
    restrictClose [("A", [(0, some 1), (1, some 2)])] "A" 0 = some [(0, 1), (1, 2)] ∧
    (∀ r ∈ [MLRow.mk
        { date := 0, daily_sentiment := some 0, sentiment_3d := some 0,
          sentiment_7d := none, Close_Price_T := some 1, ret_1d := none,
          ret_5d := none, ret_20d := none, vol_20d := none,
          Target_Pct_Change := some 1 } "unknown" 0],
      r.feat.Target_Pct_Change.isSome = true) ∧
    (∃ r ∈ [MLRow.mk
        { date := 0, daily_sentiment := some 0, sentiment_3d := some 0,
          sentiment_7d := none, Close_Price_T := some 1, ret_1d := none,
          ret_5d := none, ret_20d := none, vol_20d := none,
          Target_Pct_Change := some 1 } "unknown" 0],
      r.feat.date = 0 ∧ r.feat.Target_Pct_Change = some 1) ∧
    (∀ r ∈ [MLRow.mk
        { date := 0, daily_sentiment := some 0, sentiment_3d := some 0,
          sentiment_7d := none, Close_Price_T := some 1, ret_1d := none,
          ret_5d := none, ret_20d := none, vol_20d := none,
          Target_Pct_Change := some 1 } "unknown" 0],
      r.feat.date ≠ 1) := by
  have h := target_is_next_day_return [("A", [(0, some 1), (1, some 2)])] [(0, "x")] []
    (fun _ => 0) 0 "A" [(0, 1), (1, 2)]
    [MLRow.mk
      { date := 0, daily_sentiment := some 0, sentiment_3d := some 0,
        sentiment_7d := none, Close_Price_T := some 1, ret_1d := none,
        ret_5d := none, ret_20d := none, vol_20d := none,
        Target_Pct_Change := some 1 } "unknown" 0]
    restrictClose_eval_two_point (by decide) (by norm_num) generate_eval_two_point
  obtain ⟨r, hrmem, hrd, hrt⟩ := h.2.2.1 0 (by norm_num)
  have hrt2 : r.feat.Target_Pct_Change = some 1 := by
    rw [hrt]
    norm_num [List.getD_cons_zero, List.getD_cons_succ]
  exact ⟨restrictClose_eval_two_point, h.1, ⟨r, hrmem, hrd, hrt2⟩, h.2.2.2⟩

/-- C3 counterexample: with a price artifact holding a one-date close
series and a news artifact present, the final dataset is empty (the only
close date has an undefined target), yet `generate_ml_training_dataset`
returns an empty dataset rather than `None`. -/
theorem none_policy_cex :
    generate_ml_training_dataset (some [("A", [(0, some 1)])]) (some []) []
      (fun _ => 0) 0 "A" = some [] ∧
    generate_ml_training_dataset (some [("A", [(0, some 1)])]) (some []) []
      (fun _ => 0) 0 "A" ≠ none := by
  refine ⟨by decide, fun hc => ?_⟩
  have h1 : generate_ml_training_dataset (some [("A", [(0, some 1)])]) (some []) []
      (fun _ => 0) 0 "A" = some [] := by decide
  rw [hc] at h1
  exact Option.noConfusion h1

/-- C3 amended: `generate_ml_training_dataset` returns `None` (and, being a
total function, cannot raise) when the price artifact is missing, when
the ticker has no close column, and when the news artifact is missing; an
empty final row set, however, is returned as an empty dataset, not as
`None`. -/
theorem none_policy (pdf : List (String × List (Nat × Option ℚ)))
    (news : Option (List (Nat × String))) (sm : List (String × String))
    (an : String → ℚ) (start : Nat) (ticker : String) :
    (generate_ml_training_dataset none news sm an start ticker = none) ∧
    (pdf.find? (fun p => p.1 = ticker) = none →
      generate_ml_training_dataset (some pdf) news sm an start ticker = none) ∧
    (generate_ml_training_dataset (some pdf) none sm an start ticker = none) ∧
    (generate_ml_training_dataset (some [("A", [(0, some 1)])]) (some []) []
      (fun _ => 0) 0 "A" = some []) := by
  refine ⟨rfl, fun h => ?_, generate_no_news (some pdf) sm an start ticker, by decide⟩
  have hrc : restrictClose pdf ticker start = none := by
    simp only [restrictClose, h]
  simp only [generate_ml_training_dataset, hrc]

/-- Witness for C3 amended at concrete artifacts (for the column-absent
case, an empty price artifact, whose lookup of "A" fails). -/
theorem none_policy_witness :
    generate_ml_training_dataset none (some []) [] (fun _ => 0) 0 "A" = none ∧
    generate_ml_training_dataset (some []) (some []) [] (fun _ => 0) 0 "A" = none ∧
    generate_ml_training_dataset (some []) none [] (fun _ => 0) 0 "A" = none :=
  ⟨(none_policy [] (some []) [] (fun _ => 0) 0 "A").1,
   (none_policy [] (some []) [] (fun _ => 0) 0 "A").2.1 rfl,
   (none_policy [] (some []) [] (fun _ => 0) 0 "A").2.2.1⟩

/-- C10: every row of a dataset returned by `generate_ml_training_dataset`
carries the single sector name resolved for the ticker before the join,
and its categorical code `Sector_Feature` is 0, because exactly one
categorical value is present in a single-ticker run. -/
theorem sector_columns_constant (pa : Option (List (String × List (Nat × Option ℚ))))
    (na : Option (List (Nat × String))) (sm : List (String × String))
    (an : String → ℚ) (start : Nat) (ticker : String) (rows : List MLRow)
    (hgen : generate_ml_training_dataset pa na sm an start ticker = some rows) :
    ∀ r ∈ rows, r.Sector_Name = lookupD sm ticker "unknown" ∧ r.Sector_Feature = 0 := by
  cases pa with
  | none => exact Option.noConfusion hgen
  | some pdf =>
    cases hc : restrictClose pdf ticker start with
    | none =>
      simp only [generate_ml_training_dataset, hc] at hgen
      exact Option.noConfusion hgen
    | some close =>
      cases close with
      | nil =>
        simp only [generate_ml_training_dataset, hc] at hgen
        exact Option.noConfusion hgen
      | cons c0 ctl =>
        cases na with
        | none =>
          rw [generate_no_news] at hgen
          exact Option.noConfusion hgen
        | some news =>
          have hrows : rows = finalRows (c0 :: ctl) news sm an ticker := by
            rw [generate_eq_finalRows pdf news sm an start ticker c0 ctl hc] at hgen
            exact (Option.some.inj hgen).symm
          rw [hrows, finalRows_eq_map]
          intro r hr
          obtain ⟨fr, hfr, hmk⟩ := List.mem_map.mp hr
          have hne : ((buildRows (c0 :: ctl) news an).filter anyFieldSome).filter
              (fun r => r.Target_Pct_Change.isSome) ≠ [] := List.ne_nil_of_mem hfr
          constructor
          · rw [← hmk]
          · rw [← hmk]
            show idxOfStr (lookupD sm ticker "unknown")
              (dedupSort ((((buildRows (c0 :: ctl) news an).filter anyFieldSome).filter
                (fun r => r.Target_Pct_Change.isSome)).map
                (fun _ => lookupD sm ticker "unknown"))) = 0
            rw [dedupSort_const hne]
            simp [idxOfStr]

/-- Witness for C10 at the concrete two-date example: the single row has
`Sector_Name` "unknown" (the empty mapping resolves to the default) and
`Sector_Feature` 0. -/
theorem sector_columns_constant_witness :
    (MLRow.mk
      { date := 0, daily_sentiment := some 0, sentiment_3d := some 0,
        sentiment_7d := none, Close_Price_T := some 1, ret_1d := none,
        ret_5d := none, ret_20d := none, vol_20d := none,
        Target_Pct_Change := some 1 } "unknown" 0).Sector_Name = "unknown" ∧
    (MLRow.mk
      { date := 0, daily_sentiment := some 0, sentiment_3d := some 0,
        sentiment_7d := none, Close_Price_T := some 1, ret_1d := none,
        ret_5d := none, ret_20d := none, vol_20d := none,
        Target_Pct_Change := some 1 } "unknown" 0).Sector_Feature = 0 :=
  sector_columns_constant (some [("A", [(0, some 1), (1, some 2)])]) (some [(0, "x")])
    [] (fun _ => 0) 0 "A"
    [MLRow.mk
      { date := 0, daily_sentiment := some 0, sentiment_3d := some 0,
        sentiment_7d := none, Close_Price_T := some 1, ret_1d := none,
        ret_5d := none, ret_20d := none, vol_20d := none,
        Target_Pct_Change := some 1 } "unknown" 0]
    generate_eval_two_point
    (MLRow.mk
      { date := 0, daily_sentiment := some 0, sentiment_3d := some 0,
        sentiment_7d := none, Close_Price_T := some 1, ret_1d := none,
        ret_5d := none, ret_20d := none, vol_20d := none,
        Target_Pct_Change := some 1 } "unknown" 0)
    (List.mem_singleton.mpr rfl)

end Quanta
